import Mathlib

/-!
# Verification of ironbar's threshold tables

A shallow embedding of `src/config/thresholds.rs`: the `Thresholds<T>` enum
(Basic / Dynamic / Manual) and its `threshold_for(value, max)` resolution
method, together with proofs about its behaviour.

Modelling choices:
* Rust `f64` measurements are modelled as exact rationals (`ℚ`); every
  arithmetic step of the source (division, multiplication, subtraction of the
  literal `0.00001`, `floor`) is carried out exactly.
* The Rust casts `as u32` / `as usize` applied to a floored float saturate:
  negative values clamp to `0`, values above the type maximum clamp to the
  maximum.  `satFloorU32` and `Int.toNat` model this.
* `HashMap<u32, T>` is modelled as an association list `List (ℕ × T)`; the
  hash map's key uniqueness appears as a `Nodup` hypothesis where needed.
* The `unreachable!` panic in the `Basic` arm is modelled by the
  `RunResult.panicked` constructor; normal returns are `RunResult.ok`.
* `ℚ` has no infinities or NaN, so the one place the source relies on IEEE
  non-finite values is made explicit: in the `Basic` arm, when
  `interval = max / 3.0` is zero the f64 quotient `value / interval` is
  `±inf` or `NaN`, which matches none of the range patterns and falls into
  `unreachable!`; the embedding tests `interval = 0` explicitly and panics,
  instead of letting the rational convention `x / 0 = 0` silently select a
  range arm the source never reaches.
-/

/-- The three-valued payload used by the repository's own test fixtures
(`"low"`, `"medium"`, `"high"`). -/
inductive Level where
  | low : Level
  | medium : Level
  | high : Level
deriving DecidableEq, Repr

/-- Outcome of running `threshold_for`: either a normal return of an
`Option` payload, or a `panic` via the `unreachable!` macro. -/
inductive RunResult (T : Type) where
  | panicked : RunResult T
  | ok : Option T → RunResult T
deriving DecidableEq, Repr

/-- The Rust cast `value.floor() as u32`: floor, then saturate into
`[0, 2^32 - 1]`. -/
def satFloorU32 (v : ℚ) : ℕ :=
  min (Int.toNat ⌊v⌋) (2 ^ 32 - 1)

/-- The raw (pre-cast) Dynamic index `⌊(value / max) * len - 0.00001⌋`,
exactly as computed on line 67 of the source (the literal `0.00001` is the
rational `1 / 100000`). -/
def dynIndexRaw (value max : ℚ) (n : ℕ) : ℤ :=
  ⌊value / max * (n : ℚ) - 1 / 100000⌋

/-- `HashMap::get` on the association-list model: the payload of the first
pair whose key matches. -/
def hashGet {T : Type} (k : ℕ) : List (ℕ × T) → Option T
  | [] => none
  | (k', t) :: rest => if k' = k then some t else hashGet k rest

/-- `map.keys().collect::<Vec<_>>()` followed by `keys.sort()`:
the key multiset, sorted ascending. -/
def sortedKeys {T : Type} (entries : List (ℕ × T)) : List ℕ :=
  (entries.map Prod.fst).insertionSort (· ≤ ·)

/-- The Manual arm's pipeline: `keys.sort()`, then
`rfind(|k| **k <= value.floor() as u32)` (first match from the right, i.e.
`find?` on the reversed sorted list), then `map.get(key)`. -/
def manualResolve {T : Type} (entries : List (ℕ × T)) (u : ℕ) : Option T :=
  ((sortedKeys entries).reverse.find? (fun k => decide (k ≤ u))).bind
    (fun key => hashGet key entries)

/-- The `Thresholds<T>` enum of `src/config/thresholds.rs`. -/
inductive Thresholds (T : Type) where
  | Basic (low medium high : T)
  | Dynamic (entries : List T)
  | Manual (entries : List (ℕ × T))

/-- `Thresholds::threshold_for(&self, value: f64, max: f64) -> Option<&T>`,
with the `unreachable!` arm of `Basic` surfaced as `RunResult.panicked`.

* `Basic`: `interval = max / 3.0`; match on `value / interval` against the
  range patterns `0.0..1.0`, `1.0..2.0`, `2.0..=3.0`, else `unreachable!`.
  When `interval` is zero the f64 quotient is `±inf` or `NaN` and matches no
  range pattern, so the source panics for every value; the embedding makes
  that case an explicit guard (rational division by zero would otherwise
  return 0 and wrongly select the low arm).
* `Dynamic`: if `value <= max`, index `(value / max) * len - 0.00001`,
  floored and cast (saturating) to `usize`, looked up with `Vec::get`;
  otherwise `map.last()`.
* `Manual`: sorted keys, `rfind` of the greatest key `<= value.floor() as
  u32`, then `map.get`. -/
def Thresholds.threshold_for {T : Type} : Thresholds T → ℚ → ℚ → RunResult T
  | .Basic low medium high, value, max =>
    let interval := max / 3
    if interval = 0 then .panicked
    else
      let q := value / interval
      if 0 ≤ q ∧ q < 1 then .ok (some low)
      else if 1 ≤ q ∧ q < 2 then .ok (some medium)
      else if 2 ≤ q ∧ q ≤ 3 then .ok (some high)
      else .panicked
  | .Dynamic entries, value, max =>
    if value ≤ max then
      .ok entries[(Int.toNat (dynIndexRaw value max entries.length))]?
    else
      .ok entries.getLast?
  | .Manual entries, value, _ =>
    .ok (manualResolve entries (satFloorU32 value))

/-- The repository test fixture `basic()`. -/
def basicFixture : Thresholds Level := .Basic .low .medium .high

/-- The repository test fixture `dynamic()`. -/
def dynamicFixture : Thresholds Level := .Dynamic [.low, .medium, .high]

/-- The repository test fixture `manual()` (keys 0, 33, 67). -/
def manualFixture : Thresholds Level :=
  .Manual [(0, .low), (33, .medium), (67, .high)]

/-! ## Helper lemmas: the Basic arm -/

lemma div3_ne_zero {max : ℚ} (hM : max ≠ 0) : max / 3 ≠ 0 :=
  div_ne_zero hM (by norm_num)

lemma basic_eq_low {T : Type} (low medium high : T) (value max : ℚ) (hM : max ≠ 0)
    (h0 : 0 ≤ value / (max / 3)) (h1 : value / (max / 3) < 1) :
    Thresholds.threshold_for (.Basic low medium high) value max = .ok (some low) := by
  simp only [Thresholds.threshold_for]
  rw [if_neg (div3_ne_zero hM), if_pos ⟨h0, h1⟩]

lemma basic_eq_medium {T : Type} (low medium high : T) (value max : ℚ) (hM : max ≠ 0)
    (h1 : 1 ≤ value / (max / 3)) (h2 : value / (max / 3) < 2) :
    Thresholds.threshold_for (.Basic low medium high) value max = .ok (some medium) := by
  simp only [Thresholds.threshold_for]
  rw [if_neg (div3_ne_zero hM), if_neg (by rintro ⟨_, h⟩; linarith), if_pos ⟨h1, h2⟩]

lemma basic_eq_high {T : Type} (low medium high : T) (value max : ℚ) (hM : max ≠ 0)
    (h2 : 2 ≤ value / (max / 3)) (h3 : value / (max / 3) ≤ 3) :
    Thresholds.threshold_for (.Basic low medium high) value max = .ok (some high) := by
  simp only [Thresholds.threshold_for]
  rw [if_neg (div3_ne_zero hM), if_neg (by rintro ⟨_, h⟩; linarith),
    if_neg (by rintro ⟨_, h⟩; linarith), if_pos ⟨h2, h3⟩]

lemma basic_eq_panicked_of_zero {T : Type} (low medium high : T) (value max : ℚ)
    (hM : max = 0) :
    Thresholds.threshold_for (.Basic low medium high) value max = .panicked := by
  simp only [Thresholds.threshold_for]
  rw [if_pos (by rw [hM]; norm_num)]

lemma basic_eq_panicked {T : Type} (low medium high : T) (value max : ℚ) (hM : max ≠ 0)
    (h : value / (max / 3) < 0 ∨ 3 < value / (max / 3)) :
    Thresholds.threshold_for (.Basic low medium high) value max = .panicked := by
  simp only [Thresholds.threshold_for]
  rw [if_neg (div3_ne_zero hM)]
  rcases h with h | h
  · rw [if_neg (by rintro ⟨h', _⟩; linarith), if_neg (by rintro ⟨h', _⟩; linarith),
      if_neg (by rintro ⟨h', _⟩; linarith)]
  · rw [if_neg (by rintro ⟨_, h'⟩; linarith), if_neg (by rintro ⟨_, h'⟩; linarith),
      if_neg (by rintro ⟨_, h'⟩; linarith)]

/-! ## Helper lemmas: the Manual arm -/

lemma hashGet_eq_some_of_mem {T : Type} {entries : List (ℕ × T)} {k : ℕ} {t : T}
    (hnd : (entries.map Prod.fst).Nodup) (hmem : (k, t) ∈ entries) :
    hashGet k entries = some t := by
  induction entries with
  | nil => cases hmem
  | cons p rest ih =>
    obtain ⟨k', t'⟩ := p
    simp only [List.map_cons, List.nodup_cons] at hnd
    rcases List.mem_cons.mp hmem with heq | hrest
    · obtain ⟨rfl, rfl⟩ := Prod.mk.injEq .. ▸ heq
      simp [hashGet]
    · have hk : k ∈ rest.map Prod.fst := List.mem_map.mpr ⟨(k, t), hrest, rfl⟩
      have hne : k' ≠ k := fun h => hnd.1 (h ▸ hk)
      simp only [hashGet, if_neg hne]
      exact ih hnd.2 hrest

lemma hashGet_isSome_of_mem_keys {T : Type} {entries : List (ℕ × T)} {k : ℕ}
    (h : k ∈ entries.map Prod.fst) : ∃ t, hashGet k entries = some t := by
  induction entries with
  | nil => simp at h
  | cons p rest ih =>
    obtain ⟨k', t'⟩ := p
    by_cases hk : k' = k
    · exact ⟨t', by simp [hashGet, hk]⟩
    · simp only [List.map_cons, List.mem_cons] at h
      rcases h with h | h
      · exact absurd h.symm hk
      · obtain ⟨t, ht⟩ := ih h
        exact ⟨t, by simp [hashGet, hk, ht]⟩

lemma mem_of_hashGet_eq_some {T : Type} {entries : List (ℕ × T)} {k : ℕ} {t : T}
    (h : hashGet k entries = some t) : (k, t) ∈ entries := by
  induction entries with
  | nil => exact Option.noConfusion h
  | cons p rest ih =>
    obtain ⟨k', t'⟩ := p
    by_cases hk : k' = k
    · subst hk
      simp only [hashGet, if_pos rfl] at h
      injection h with h'
      rw [← h']
      exact List.mem_cons_self ..
    · simp only [hashGet, if_neg hk] at h
      exact List.mem_cons_of_mem _ (ih h)

lemma mem_sortedKeys {T : Type} {entries : List (ℕ × T)} {k : ℕ} :
    k ∈ sortedKeys entries ↔ k ∈ entries.map Prod.fst :=
  List.mem_insertionSort _

lemma sortedKeys_sorted {T : Type} (entries : List (ℕ × T)) :
    (sortedKeys entries).Sorted (· ≤ ·) :=
  List.sorted_insertionSort _ _

lemma sortedKeys_reverse_sorted {T : Type} (entries : List (ℕ × T)) :
    ((sortedKeys entries).reverse).Sorted (fun a b => b ≤ a) := by
  rw [List.Sorted, List.pairwise_reverse]
  exact sortedKeys_sorted entries

lemma find_desc_spec {u : ℕ} :
    ∀ {l : List ℕ}, l.Sorted (fun a b => b ≤ a) →
    ∀ {k : ℕ}, l.find? (fun x => decide (x ≤ u)) = some k →
    k ∈ l ∧ k ≤ u ∧ ∀ x ∈ l, x ≤ u → x ≤ k := by
  intro l
  induction l with
  | nil => intro _ k h; simp [List.find?] at h
  | cons a rest ih =>
    intro hs k hfind
    rw [List.sorted_cons] at hs
    by_cases ha : a ≤ u
    · rw [List.find?_cons_of_pos _ (by simpa using ha)] at hfind
      obtain rfl : a = k := by simpa using hfind
      refine ⟨List.mem_cons_self .., ha, ?_⟩
      intro x hx _
      rcases List.mem_cons.mp hx with rfl | hx
      · exact le_refl _
      · exact hs.1 x hx
    · rw [List.find?_cons_of_neg _ (by simpa using ha)] at hfind
      obtain ⟨hk1, hk2, hk3⟩ := ih hs.2 hfind
      refine ⟨List.mem_cons_of_mem _ hk1, hk2, ?_⟩
      intro x hx hxu
      rcases List.mem_cons.mp hx with rfl | hx
      · exact absurd hxu ha
      · exact hk3 x hx hxu

lemma manualResolve_eq_none_iff {T : Type} (entries : List (ℕ × T)) (u : ℕ) :
    manualResolve entries u = none ↔ ∀ p ∈ entries, ¬ p.1 ≤ u := by
  unfold manualResolve
  constructor
  · intro h p hp hpu
    cases hfind : ((sortedKeys entries).reverse.find? (fun k => decide (k ≤ u))) with
    | none =>
      rw [List.find?_eq_none] at hfind
      exact hfind p.1 (by
        rw [List.mem_reverse, mem_sortedKeys]
        exact List.mem_map.mpr ⟨p, hp, rfl⟩) (by simpa using hpu)
    | some k =>
      have hk : k ∈ (sortedKeys entries).reverse := List.mem_of_find?_eq_some hfind
      rw [List.mem_reverse, mem_sortedKeys] at hk
      obtain ⟨t, ht⟩ := hashGet_isSome_of_mem_keys hk
      rw [hfind] at h
      simp [ht] at h
  · intro h
    have hfind : ((sortedKeys entries).reverse.find? (fun k => decide (k ≤ u))) = none := by
      rw [List.find?_eq_none]
      intro x hx
      rw [List.mem_reverse, mem_sortedKeys] at hx
      obtain ⟨p, hp, rfl⟩ := List.mem_map.mp hx
      simpa using h p hp
    rw [hfind]
    rfl

lemma manualResolve_eq_some_greatest {T : Type} {entries : List (ℕ × T)} {u k : ℕ} {t : T}
    (hnd : (entries.map Prod.fst).Nodup) (hmem : (k, t) ∈ entries) (hk : k ≤ u)
    (hgreatest : ∀ p ∈ entries, p.1 ≤ u → p.1 ≤ k) :
    manualResolve entries u = some t := by
  have hkmem : k ∈ (sortedKeys entries).reverse := by
    rw [List.mem_reverse, mem_sortedKeys]
    exact List.mem_map.mpr ⟨(k, t), hmem, rfl⟩
  cases hfind : ((sortedKeys entries).reverse.find? (fun x => decide (x ≤ u))) with
  | none =>
    rw [List.find?_eq_none] at hfind
    exact absurd (by simpa using hfind k hkmem) (by simpa using hk)
  | some k₀ =>
    obtain ⟨hk₀mem, hk₀u, hk₀max⟩ := find_desc_spec (sortedKeys_reverse_sorted entries) hfind
    rw [List.mem_reverse, mem_sortedKeys] at hk₀mem
    obtain ⟨p, hp, hpk⟩ := List.mem_map.mp hk₀mem
    have h1 : k₀ ≤ k := by
      rw [← hpk]
      exact hgreatest p hp (by rw [hpk]; exact hk₀u)
    have h2 : k ≤ k₀ := hk₀max k hkmem hk
    obtain rfl : k₀ = k := le_antisymm h1 h2
    unfold manualResolve
    rw [hfind]
    exact hashGet_eq_some_of_mem hnd hmem

/-! ## Helper lemmas: the Dynamic arm -/

lemma dynIndexRaw_lt {n : ℕ} (v M : ℚ) (hM : 0 < M) (hvM : v ≤ M) :
    dynIndexRaw v M n < n := by
  unfold dynIndexRaw
  rw [Int.floor_lt]
  have h1 : v / M ≤ 1 := div_le_one_of_le₀ hvM hM.le
  have h2 : v / M * (n : ℚ) ≤ (n : ℚ) := by
    calc v / M * (n : ℚ) ≤ 1 * (n : ℚ) :=
          mul_le_mul_of_nonneg_right h1 (by positivity)
      _ = (n : ℚ) := one_mul _
  push_cast
  linarith

lemma dynIndex_toNat_lt {T : Type} {entries : List T} (v M : ℚ)
    (hne : entries ≠ []) (hM : 0 < M) (hvM : v ≤ M) :
    (dynIndexRaw v M entries.length).toNat < entries.length := by
  have h := dynIndexRaw_lt (n := entries.length) v M hM hvM
  have hn : 0 < entries.length := List.length_pos.mpr hne
  omega

lemma threshold_for_Dynamic_le {T : Type} (entries : List T) (v M : ℚ) (h : v ≤ M) :
    Thresholds.threshold_for (.Dynamic entries) v M =
      .ok entries[(Int.toNat (dynIndexRaw v M entries.length))]? := by
  simp [Thresholds.threshold_for, h]

lemma threshold_for_Dynamic_gt {T : Type} (entries : List T) (v M : ℚ) (h : ¬ v ≤ M) :
    Thresholds.threshold_for (.Dynamic entries) v M = .ok entries.getLast? := by
  simp [Thresholds.threshold_for, h]

/-- Evaluation helper for the Dynamic fixture: once the raw index is known,
the lookup reduces. -/
lemma dynamicFixture_eval (v : ℚ) (i : ℤ) (hv : v ≤ 100)
    (hi : dynIndexRaw v 100 3 = i) :
    Thresholds.threshold_for dynamicFixture v 100 =
      .ok [Level.low, Level.medium, Level.high][i.toNat]? := by
  show Thresholds.threshold_for
    (Thresholds.Dynamic [Level.low, Level.medium, Level.high]) v 100 = _
  rw [threshold_for_Dynamic_le _ _ _ hv]
  show RunResult.ok [Level.low, Level.medium, Level.high][(dynIndexRaw v 100 3).toNat]? = _
  rw [hi]

/-- Evaluation helper for the Manual fixture: once the saturated floor of the
value is known, the lookup reduces. -/
lemma manualFixture_eval (v : ℚ) (u : ℕ) (hu : satFloorU32 v = u) :
    Thresholds.threshold_for manualFixture v 100 =
      .ok (manualResolve [(0, Level.low), (33, Level.medium), (67, Level.high)] u) := by
  show Thresholds.threshold_for
    (Thresholds.Manual [(0, Level.low), (33, Level.medium), (67, Level.high)]) v 100 = _
  simp only [Thresholds.threshold_for, hu]

/-! ## Claims -/

/-- C1: for the Basic variant with payloads (low, medium, high), for every
max > 0 and every value with ratio = value / (max/3) in [0, 3]:
`threshold_for` returns `low` if the ratio is in [0, 1), `medium` if it is in
[1, 2), and `high` if it is in [2, 3] (upper bound inclusive). -/
theorem C1_basic_ratio_selection {T : Type} (low medium high : T) (value max : ℚ)
    (hmax : 0 < max) :
    (0 ≤ value / (max / 3) → value / (max / 3) < 1 →
      Thresholds.threshold_for (.Basic low medium high) value max = .ok (some low)) ∧
    (1 ≤ value / (max / 3) → value / (max / 3) < 2 →
      Thresholds.threshold_for (.Basic low medium high) value max = .ok (some medium)) ∧
    (2 ≤ value / (max / 3) → value / (max / 3) ≤ 3 →
      Thresholds.threshold_for (.Basic low medium high) value max = .ok (some high)) :=
  ⟨fun h0 h1 => basic_eq_low low medium high value max (ne_of_gt hmax) h0 h1,
   fun h1 h2 => basic_eq_medium low medium high value max (ne_of_gt hmax) h1 h2,
   fun h2 h3 => basic_eq_high low medium high value max (ne_of_gt hmax) h2 h3⟩

/-- Witness for C1 at value = 10, max = 100 (ratio = 0.3, low bucket). -/
theorem C1_witness :
    Thresholds.threshold_for (Thresholds.Basic Level.low Level.medium Level.high) 10 100
      = RunResult.ok (some Level.low) :=
  (C1_basic_ratio_selection Level.low Level.medium Level.high 10 100 (by norm_num)).1
    (by norm_num) (by norm_num)

/-- C2 counterexample: at value = 0, max = 100, N = 3 the claimed index
`⌊(value/max)·N − ε⌋` is −1, which is not in [0, N); the code still returns
the first entry, because the float → usize cast saturates at 0. -/
theorem C2_counterexample :
    dynIndexRaw 0 100 3 = -1 ∧
    ¬ (0 ≤ dynIndexRaw 0 100 3) ∧
    Thresholds.threshold_for dynamicFixture 0 100 = RunResult.ok (some Level.low) := by
  have h : dynIndexRaw 0 100 3 = -1 := by norm_num [dynIndexRaw, Int.floor_eq_iff]
  refine ⟨h, by rw [h]; decide, ?_⟩
  show Thresholds.threshold_for
    (Thresholds.Dynamic [Level.low, Level.medium, Level.high]) 0 100 = _
  rw [threshold_for_Dynamic_le _ _ _ (by norm_num)]
  show RunResult.ok [Level.low, Level.medium, Level.high][(dynIndexRaw 0 100 3).toNat]? = _
  rw [h]
  rfl

/-- C2 amended: for the Dynamic variant with a non-empty sequence, max M > 0
and value v in [0, M], `threshold_for` returns `Some entries[i]` where
`i = (⌊(v/M)·N − 1/100000⌋).toNat` — the raw floored index saturated at 0 by
the float → usize cast — and `i` is always in [0, N). -/
theorem C2_amended_dynamic_index {T : Type} (entries : List T) (v M : ℚ)
    (hne : entries ≠ []) (hM : 0 < M) (h0 : 0 ≤ v) (hvM : v ≤ M) :
    ∃ h : (dynIndexRaw v M entries.length).toNat < entries.length,
      Thresholds.threshold_for (.Dynamic entries) v M =
        .ok (some (entries.get ⟨(dynIndexRaw v M entries.length).toNat, h⟩)) := by
  refine ⟨dynIndex_toNat_lt v M hne hM hvM, ?_⟩
  rw [threshold_for_Dynamic_le _ _ _ hvM]
  congr 1
  rw [List.getElem?_eq_getElem (dynIndex_toNat_lt v M hne hM hvM)]
  rfl

/-- Witness for C2 at v = 50, M = 100 with three entries (index 1, medium). -/
theorem C2_witness :
    ∃ h : (dynIndexRaw 50 100
        ([Level.low, Level.medium, Level.high].length)).toNat
        < [Level.low, Level.medium, Level.high].length,
      Thresholds.threshold_for (.Dynamic [Level.low, Level.medium, Level.high]) 50 100 =
        .ok (some ([Level.low, Level.medium, Level.high].get
          ⟨(dynIndexRaw 50 100 ([Level.low, Level.medium, Level.high].length)).toNat, h⟩)) :=
  C2_amended_dynamic_index [Level.low, Level.medium, Level.high] 50 100
    (by decide) (by norm_num) (by norm_num) (by norm_num)

/-- C3 counterexample: the Basic variant panics (the `unreachable!` arm) when
value exceeds max — here value = 400, max = 100, ratio = 12. -/
theorem C3_counterexample :
    Thresholds.threshold_for basicFixture 400 100 = RunResult.panicked := by
  show Thresholds.threshold_for
    (Thresholds.Basic Level.low Level.medium Level.high) 400 100 = _
  exact basic_eq_panicked _ _ _ _ _ (by norm_num) (Or.inr (by norm_num))

/-- C3 amended: `threshold_for` panics exactly when the table is a Basic
variant and either max = 0 (the f64 ratio value / (max/3) is ±inf or NaN,
matching no range pattern) or the ratio value / (max/3) falls outside
[0, 3]; the Dynamic and Manual variants never panic, and every normal
return is `Some` or `None`. -/
theorem C3_amended_panic_iff {T : Type} (t : Thresholds T) (value max : ℚ) :
    t.threshold_for value max = RunResult.panicked ↔
      ∃ low medium high, t = .Basic low medium high ∧
        (max = 0 ∨ value / (max / 3) < 0 ∨ 3 < value / (max / 3)) := by
  cases t with
  | Basic low medium high =>
    constructor
    · intro h
      refine ⟨low, medium, high, rfl, ?_⟩
      by_cases hM : max = 0
      · exact Or.inl hM
      · refine Or.inr ?_
        by_contra hc
        push_neg at hc
        obtain ⟨h1, h2⟩ := hc
        rcases lt_or_le (value / (max / 3)) 1 with hq1 | hq1
        · rw [basic_eq_low low medium high value max hM h1 hq1] at h
          exact RunResult.noConfusion h
        · rcases lt_or_le (value / (max / 3)) 2 with hq2 | hq2
          · rw [basic_eq_medium low medium high value max hM hq1 hq2] at h
            exact RunResult.noConfusion h
          · rw [basic_eq_high low medium high value max hM hq2 h2] at h
            exact RunResult.noConfusion h
    · rintro ⟨l', m', h', heq, hout⟩
      injection heq with e1 e2 e3
      subst e1; subst e2; subst e3
      rcases hout with hM | hout
      · exact basic_eq_panicked_of_zero _ _ _ _ _ hM
      · by_cases hM : max = 0
        · exact basic_eq_panicked_of_zero _ _ _ _ _ hM
        · exact basic_eq_panicked _ _ _ _ _ hM hout
  | Dynamic entries =>
    constructor
    · intro h
      by_cases hv : value ≤ max
      · rw [threshold_for_Dynamic_le _ _ _ hv] at h
        exact RunResult.noConfusion h
      · rw [threshold_for_Dynamic_gt _ _ _ hv] at h
        exact RunResult.noConfusion h
    · rintro ⟨_, _, _, heq, _⟩
      exact Thresholds.noConfusion heq
  | Manual entries =>
    constructor
    · intro h
      exact RunResult.noConfusion h
    · rintro ⟨_, _, _, heq, _⟩
      exact Thresholds.noConfusion heq

/-- Witness for C3 at a Basic table with max = 0 (the f64 ratio 400/0.0 is
+inf, matching no range arm, so the source panics for every value). -/
theorem C3_witness :
    Thresholds.threshold_for
      (Thresholds.Basic Level.low Level.medium Level.high) 400 0
      = RunResult.panicked :=
  (C3_amended_panic_iff (Thresholds.Basic Level.low Level.medium Level.high) 400 0).mpr
    ⟨Level.low, Level.medium, Level.high, rfl, Or.inl rfl⟩

/-- C5: for the Dynamic variant with a non-empty sequence and value > max,
`threshold_for` returns the last entry, however far value exceeds max. -/
theorem C5_dynamic_over_max_last {T : Type} (entries : List T) (v M : ℚ)
    (hne : entries ≠ []) (hv : M < v) :
    Thresholds.threshold_for (.Dynamic entries) v M =
      .ok (some (entries.getLast hne)) := by
  rw [threshold_for_Dynamic_gt _ _ _ (not_le.mpr hv),
    List.getLast?_eq_getLast _ hne]

/-- Witness for C5 at v = 101, M = 100 with three entries. -/
theorem C5_witness :
    Thresholds.threshold_for (Thresholds.Dynamic [Level.low, Level.medium, Level.high]) 101 100
      = RunResult.ok (some Level.high) := by
  rw [C5_dynamic_over_max_last [Level.low, Level.medium, Level.high] 101 100
    (by decide) (by norm_num)]
  rfl

/-- C9: a Manual variant with an empty boundary map and a Dynamic variant
with an empty sequence both return None for every value and every max. -/
theorem C9_empty_collections_none {T : Type} (value max : ℚ) :
    Thresholds.threshold_for (Thresholds.Manual ([] : List (ℕ × T))) value max
      = RunResult.ok none ∧
    Thresholds.threshold_for (Thresholds.Dynamic ([] : List T)) value max
      = RunResult.ok none := by
  constructor
  · rfl
  · by_cases h : value ≤ max
    · rw [threshold_for_Dynamic_le _ _ _ h]
      simp
    · rw [threshold_for_Dynamic_gt _ _ _ h]
      rfl

/-- C10: for a Manual variant whose map contains key 0, every negative value
selects the key-0 payload (the floor of a negative value saturates to 0 under
the `as u32` cast). -/
theorem C10_manual_negative_selects_key0 {T : Type} (entries : List (ℕ × T)) (t : T)
    (value max : ℚ) (hnd : (entries.map Prod.fst).Nodup) (hmem : (0, t) ∈ entries)
    (hv : value < 0) :
    Thresholds.threshold_for (.Manual entries) value max = .ok (some t) := by
  have h1 : ⌊value⌋ < 0 := Int.floor_lt.mpr (by exact_mod_cast hv)
  have h2 : Int.toNat ⌊value⌋ = 0 := Int.toNat_eq_zero.mpr h1.le
  have hu : satFloorU32 value = 0 := by simp [satFloorU32, h2]
  simp only [Thresholds.threshold_for, hu]
  rw [manualResolve_eq_some_greatest hnd hmem (le_refl 0) (fun p _ hp => hp)]

/-- C4 counterexample: with boundary map {0 ↦ low} and value = −5, no key is
≤ ⌊−5⌋ = −5, so the claim predicts None; the code saturates the floored value
to 0 in the `as u32` cast and returns the key-0 payload instead of None. -/
theorem C4_counterexample :
    Thresholds.threshold_for (Thresholds.Manual [(0, Level.low)]) (-5) 100
      = RunResult.ok (some Level.low) ∧
    ¬ Thresholds.threshold_for (Thresholds.Manual [(0, Level.low)]) (-5) 100
      = RunResult.ok none := by
  have h1 : ⌊(-5 : ℚ)⌋ = -5 := by norm_num
  have hu : satFloorU32 (-5) = 0 := by rw [satFloorU32, h1]; decide
  have h : Thresholds.threshold_for (Thresholds.Manual [(0, Level.low)]) (-5) 100
      = RunResult.ok (some Level.low) := by
    simp only [Thresholds.threshold_for, hu]
    rfl
  exact ⟨h, by rw [h]; simp⟩

/-- C4 amended: for the Manual variant, with u the floor of value saturated
into [0, 2^32 − 1] by the `as u32` cast:
1. the result is None exactly when no boundary key is ≤ u;
2. whenever (k, t) is an entry with k ≤ u and k dominating every other
   qualifying key, the result is Some t;
3. whenever at least one key qualifies, a greatest qualifying key k exists
   and the result is Some of its payload;
4. for non-negative values whose floor fits in u32, u coincides with the
   mathematical ⌊value⌋, so on that domain the amendment agrees with the
   original claim and only the negative / overflowing cases change. -/
theorem C4_amended_manual_greatest_key {T : Type} (entries : List (ℕ × T))
    (value max : ℚ) (hnd : (entries.map Prod.fst).Nodup) :
    (Thresholds.threshold_for (.Manual entries) value max = .ok none ↔
      ∀ p ∈ entries, ¬ p.1 ≤ satFloorU32 value) ∧
    (∀ k t, (k, t) ∈ entries → k ≤ satFloorU32 value →
      (∀ p ∈ entries, p.1 ≤ satFloorU32 value → p.1 ≤ k) →
      Thresholds.threshold_for (.Manual entries) value max = .ok (some t)) ∧
    (∀ p₀ ∈ entries, p₀.1 ≤ satFloorU32 value →
      ∃ k t, (k, t) ∈ entries ∧ k ≤ satFloorU32 value ∧
        (∀ p ∈ entries, p.1 ≤ satFloorU32 value → p.1 ≤ k) ∧
        Thresholds.threshold_for (.Manual entries) value max = .ok (some t)) ∧
    (0 ≤ value → ⌊value⌋ < 2 ^ 32 → (satFloorU32 value : ℤ) = ⌊value⌋) := by
  refine ⟨?_, ?_, ?_, ?_⟩
  · rw [show Thresholds.threshold_for (.Manual entries) value max =
      .ok (manualResolve entries (satFloorU32 value)) from rfl]
    rw [RunResult.ok.injEq]
    exact manualResolve_eq_none_iff entries (satFloorU32 value)
  · intro k t hmem hk hgreatest
    simp only [Thresholds.threshold_for]
    rw [manualResolve_eq_some_greatest hnd hmem hk hgreatest]
  · intro p₀ hp₀ hq
    have hp₀mem : p₀.1 ∈ (sortedKeys entries).reverse := by
      rw [List.mem_reverse, mem_sortedKeys]
      exact List.mem_map.mpr ⟨p₀, hp₀, rfl⟩
    cases hfind : ((sortedKeys entries).reverse.find?
        (fun x => decide (x ≤ satFloorU32 value))) with
    | none =>
      rw [List.find?_eq_none] at hfind
      exact absurd (by simpa using hfind p₀.1 hp₀mem) (by simpa using hq)
    | some k₀ =>
      obtain ⟨hk₀mem, hk₀u, hk₀max⟩ :=
        find_desc_spec (sortedKeys_reverse_sorted entries) hfind
      rw [List.mem_reverse, mem_sortedKeys] at hk₀mem
      obtain ⟨t, ht⟩ := hashGet_isSome_of_mem_keys hk₀mem
      refine ⟨k₀, t, mem_of_hashGet_eq_some ht, hk₀u, ?_, ?_⟩
      · intro p hp hpu
        exact hk₀max p.1 (by
          rw [List.mem_reverse, mem_sortedKeys]
          exact List.mem_map.mpr ⟨p, hp, rfl⟩) hpu
      · show RunResult.ok (manualResolve entries (satFloorU32 value)) = _
        unfold manualResolve
        rw [hfind]
        simp [ht]
  · intro hv hlt
    have h1 : 0 ≤ ⌊value⌋ := Int.floor_nonneg.mpr hv
    rw [satFloorU32]
    omega

/-- Witness for C4: boundaries {0 ↦ low, 33 ↦ medium}, value = 50; the
greatest qualifying key is 33. -/
theorem C4_witness :
    Thresholds.threshold_for
      (Thresholds.Manual [(0, Level.low), (33, Level.medium)]) 50 100
      = RunResult.ok (some Level.medium) := by
  have hu : satFloorU32 50 = 50 := by norm_num [satFloorU32]; decide
  refine (C4_amended_manual_greatest_key [(0, Level.low), (33, Level.medium)] 50 100
    (by decide)).2.1 33 Level.medium (by decide) (by rw [hu]; norm_num) ?_
  intro p hp _
  fin_cases hp <;> decide

/-- C6 counterexample: a non-empty Manual table can still return None — with
boundary map {33 ↦ medium} and value = 0 no key qualifies. -/
theorem C6_counterexample :
    Thresholds.threshold_for (Thresholds.Manual [(33, Level.medium)]) 0 100
      = RunResult.ok none := by
  have hu : satFloorU32 0 = 0 := by norm_num [satFloorU32]
  simp only [Thresholds.threshold_for, hu]
  rfl

/-- C6 amended: a Basic table never returns `.ok none`; a non-empty Dynamic
table with max > 0 always returns Some; a Manual table returns None exactly
when no boundary key is ≤ the saturated floor of value (so a non-empty Manual
table can still return None when value lies below every boundary). -/
theorem C6_amended_none_only {T : Type} (value max : ℚ) :
    (∀ (low medium high : T) (o : Option T),
      Thresholds.threshold_for (.Basic low medium high) value max = .ok o →
        o ≠ none) ∧
    (∀ entries : List T, entries ≠ [] → 0 < max →
      ∃ t, Thresholds.threshold_for (.Dynamic entries) value max = .ok (some t)) ∧
    (∀ entries : List (ℕ × T),
      Thresholds.threshold_for (.Manual entries) value max = .ok none ↔
        ∀ p ∈ entries, ¬ p.1 ≤ satFloorU32 value) := by
  refine ⟨?_, ?_, ?_⟩
  · intro low medium high o h
    simp only [Thresholds.threshold_for] at h
    split_ifs at h <;> injection h with h' <;> rw [← h'] <;> simp
  · intro entries hne hM
    by_cases hv : value ≤ max
    · have hlt := dynIndex_toNat_lt value max hne hM hv
      refine ⟨entries.get ⟨(dynIndexRaw value max entries.length).toNat, hlt⟩, ?_⟩
      rw [threshold_for_Dynamic_le _ _ _ hv]
      congr 1
      rw [List.getElem?_eq_getElem hlt]
      rfl
    · refine ⟨entries.getLast hne, ?_⟩
      rw [threshold_for_Dynamic_gt _ _ _ hv, List.getLast?_eq_getLast _ hne]
  · intro entries
    rw [show Thresholds.threshold_for (.Manual entries) value max =
      .ok (manualResolve entries (satFloorU32 value)) from rfl]
    rw [RunResult.ok.injEq]
    exact manualResolve_eq_none_iff entries (satFloorU32 value)

/-- Witness for C6: a singleton Dynamic table at value = 50, max = 100. -/
theorem C6_witness :
    ∃ t, Thresholds.threshold_for (Thresholds.Dynamic [Level.low]) 50 100
      = RunResult.ok (some t) :=
  (C6_amended_none_only (T := Level) 50 100).2.1 [Level.low] (by decide) (by norm_num)

/-- C7 counterexample: with M = 300 and ε = 3 the claim's table is wrong at
two points: resolve(2M/3, M) = resolve(200, 300) is `high` (ratio exactly 2
lands in the closed arm [2, 3]), not `medium`; and
resolve(2M/3, M + ε) = resolve(200, 303) is `medium` (ratio 200/101 < 2),
not `high`. -/
theorem C7_counterexample :
    Thresholds.threshold_for basicFixture 200 300 = RunResult.ok (some Level.high) ∧
    Thresholds.threshold_for basicFixture 200 303 = RunResult.ok (some Level.medium) := by
  constructor
  · show Thresholds.threshold_for
      (Thresholds.Basic Level.low Level.medium Level.high) 200 300 = _
    exact basic_eq_high _ _ _ _ _ (by norm_num) (by norm_num) (by norm_num)
  · show Thresholds.threshold_for
      (Thresholds.Basic Level.low Level.medium Level.high) 200 303 = _
    exact basic_eq_medium _ _ _ _ _ (by norm_num) (by norm_num) (by norm_num)

/-- C7 amended: for the Basic variant with max M > 0 and 0 < ε ≤ M/3:
resolve(0, M) = low, resolve(M/3 − ε, M) = low, resolve(M/3, M) = medium,
resolve(2M/3 − ε, M) = medium, resolve(2M/3, M) = high (the ratio-2 boundary
belongs to the closed high arm), and resolve(M, M) = high. -/
theorem C7_amended_basic_boundaries {T : Type} (low medium high : T) (M ε : ℚ)
    (hM : 0 < M) (hε : 0 < ε) (hεM : ε ≤ M / 3) :
    Thresholds.threshold_for (.Basic low medium high) 0 M = .ok (some low) ∧
    Thresholds.threshold_for (.Basic low medium high) (M / 3 - ε) M = .ok (some low) ∧
    Thresholds.threshold_for (.Basic low medium high) (M / 3) M = .ok (some medium) ∧
    Thresholds.threshold_for (.Basic low medium high) (2 * M / 3 - ε) M = .ok (some medium) ∧
    Thresholds.threshold_for (.Basic low medium high) (2 * M / 3) M = .ok (some high) ∧
    Thresholds.threshold_for (.Basic low medium high) M M = .ok (some high) := by
  have hM3 : 0 < M / 3 := by positivity
  have hM3' : M / 3 ≠ 0 := ne_of_gt hM3
  have hMne : M ≠ 0 := ne_of_gt hM
  refine ⟨?_, ?_, ?_, ?_, ?_, ?_⟩
  · exact basic_eq_low _ _ _ _ _ hMne (by rw [zero_div]) (by rw [zero_div]; norm_num)
  · refine basic_eq_low _ _ _ _ _ hMne ?_ ?_
    · exact div_nonneg (by linarith) hM3.le
    · rw [div_lt_one hM3]; linarith
  · have hq : (M / 3) / (M / 3) = 1 := div_self hM3'
    exact basic_eq_medium _ _ _ _ _ hMne (by rw [hq]) (by rw [hq]; norm_num)
  · refine basic_eq_medium _ _ _ _ _ hMne ?_ ?_
    · rw [one_le_div hM3]; linarith
    · rw [div_lt_iff₀ hM3]; linarith
  · have hq : (2 * M / 3) / (M / 3) = 2 := by
      rw [div_eq_iff hM3']; ring
    exact basic_eq_high _ _ _ _ _ hMne (by rw [hq]) (by rw [hq]; norm_num)
  · have hq : M / (M / 3) = 3 := by
      rw [div_eq_iff hM3']; ring
    exact basic_eq_high _ _ _ _ _ hMne (by rw [hq]; norm_num) (by rw [hq])

/-- Witness for C7 at M = 300, ε = 3. -/
theorem C7_witness :
    Thresholds.threshold_for
      (Thresholds.Basic Level.low Level.medium Level.high) 0 300
        = RunResult.ok (some Level.low) ∧
    Thresholds.threshold_for
      (Thresholds.Basic Level.low Level.medium Level.high) (300 / 3 - 3) 300
        = RunResult.ok (some Level.low) ∧
    Thresholds.threshold_for
      (Thresholds.Basic Level.low Level.medium Level.high) (300 / 3) 300
        = RunResult.ok (some Level.medium) ∧
    Thresholds.threshold_for
      (Thresholds.Basic Level.low Level.medium Level.high) (2 * 300 / 3 - 3) 300
        = RunResult.ok (some Level.medium) ∧
    Thresholds.threshold_for
      (Thresholds.Basic Level.low Level.medium Level.high) (2 * 300 / 3) 300
        = RunResult.ok (some Level.high) ∧
    Thresholds.threshold_for
      (Thresholds.Basic Level.low Level.medium Level.high) 300 300
        = RunResult.ok (some Level.high) :=
  C7_amended_basic_boundaries Level.low Level.medium Level.high 300 3
    (by norm_num) (by norm_num) (by norm_num)

/-- C8: cross-variant parity — the three repository fixtures (Basic, Dynamic
[low, medium, high], Manual {0, 33, 67}) agree at the five sample points
0, 25, 50, 75, 100 with max = 100, producing low, low, medium, high, high. -/
theorem C8_cross_variant_parity :
    (Thresholds.threshold_for basicFixture 0 100 = RunResult.ok (some Level.low) ∧
     Thresholds.threshold_for basicFixture 25 100 = RunResult.ok (some Level.low) ∧
     Thresholds.threshold_for basicFixture 50 100 = RunResult.ok (some Level.medium) ∧
     Thresholds.threshold_for basicFixture 75 100 = RunResult.ok (some Level.high) ∧
     Thresholds.threshold_for basicFixture 100 100 = RunResult.ok (some Level.high)) ∧
    (Thresholds.threshold_for dynamicFixture 0 100 = RunResult.ok (some Level.low) ∧
     Thresholds.threshold_for dynamicFixture 25 100 = RunResult.ok (some Level.low) ∧
     Thresholds.threshold_for dynamicFixture 50 100 = RunResult.ok (some Level.medium) ∧
     Thresholds.threshold_for dynamicFixture 75 100 = RunResult.ok (some Level.high) ∧
     Thresholds.threshold_for dynamicFixture 100 100 = RunResult.ok (some Level.high)) ∧
    (Thresholds.threshold_for manualFixture 0 100 = RunResult.ok (some Level.low) ∧
     Thresholds.threshold_for manualFixture 25 100 = RunResult.ok (some Level.low) ∧
     Thresholds.threshold_for manualFixture 50 100 = RunResult.ok (some Level.medium) ∧
     Thresholds.threshold_for manualFixture 75 100 = RunResult.ok (some Level.high) ∧
     Thresholds.threshold_for manualFixture 100 100 = RunResult.ok (some Level.high)) := by
  refine ⟨⟨?_, ?_, ?_, ?_, ?_⟩, ⟨?_, ?_, ?_, ?_, ?_⟩, ⟨?_, ?_, ?_, ?_, ?_⟩⟩
  · exact basic_eq_low _ _ _ _ _ (by norm_num) (by norm_num) (by norm_num)
  · exact basic_eq_low _ _ _ _ _ (by norm_num) (by norm_num) (by norm_num)
  · exact basic_eq_medium _ _ _ _ _ (by norm_num) (by norm_num) (by norm_num)
  · exact basic_eq_high _ _ _ _ _ (by norm_num) (by norm_num) (by norm_num)
  · exact basic_eq_high _ _ _ _ _ (by norm_num) (by norm_num) (by norm_num)
  · exact dynamicFixture_eval 0 (-1) (by norm_num)
      (by norm_num [dynIndexRaw, Int.floor_eq_iff])
  · exact dynamicFixture_eval 25 0 (by norm_num)
      (by norm_num [dynIndexRaw, Int.floor_eq_iff])
  · exact dynamicFixture_eval 50 1 (by norm_num)
      (by norm_num [dynIndexRaw, Int.floor_eq_iff])
  · exact dynamicFixture_eval 75 2 (by norm_num)
      (by norm_num [dynIndexRaw, Int.floor_eq_iff])
  · exact dynamicFixture_eval 100 2 (by norm_num)
      (by norm_num [dynIndexRaw, Int.floor_eq_iff])
  · exact manualFixture_eval 0 0 (by norm_num [satFloorU32])
  · exact manualFixture_eval 25 25 (by norm_num [satFloorU32]; decide)
  · exact manualFixture_eval 50 50 (by norm_num [satFloorU32]; decide)
  · exact manualFixture_eval 75 75 (by norm_num [satFloorU32]; decide)
  · exact manualFixture_eval 100 100 (by norm_num [satFloorU32]; decide)

/-- Witness for C10 at value = −7 with boundaries {0, 33}. -/
theorem C10_witness :
    Thresholds.threshold_for
      (Thresholds.Manual [(0, Level.low), (33, Level.medium)]) (-7) 100
      = RunResult.ok (some Level.low) :=
  C10_manual_negative_selects_key0 [(0, Level.low), (33, Level.medium)] Level.low (-7) 100
    (by decide) (by decide) (by norm_num)
